import Mathlib

/-!
Shallow embedding of the CSV-to-PostgreSQL loader in `main.py`: the
identifier sanitizer (`clean_column_name`), the column type inferrer
(`infer_column_type`), the schema synthesizer
(`generate_create_table_statement`), the foreign-key relationship
heuristic inside `create_all_tables`, and the row-value construction of
`import_csv_data`.  Python strings are modelled as Lean `String`
(a list of unicode scalar values); character classes of the regexes are
modelled by their code-point ranges; Python `str.lower` is modelled by
`Char.toLower` (the ASCII case mapping, which agrees with CPython on the
ASCII range); fallible Python code (index errors, `ValueError`) is
modelled with `Option`/`Except`.
-/

/-- Whitespace recognized by Python `str.strip` / `str.isspace`
(restricted to the ASCII range): space, tab, newline, carriage return,
vertical tab, form feed. -/
def isPySpaceChar (c : Char) : Bool :=
  c = ' ' || c = '\t' || c = '\n' || c = '\r' || c = '\x0b' || c = '\x0c'

/-- Model of Python `str.strip()` on the character list: drop whitespace
from both ends. -/
def pyStripList (l : List Char) : List Char :=
  ((l.dropWhile isPySpaceChar).reverse.dropWhile isPySpaceChar).reverse

/-- Lowercase ASCII letter, the class `[a-z]` (code points 97..122). -/
def lowerAZ (c : Char) : Bool := decide (97 ≤ c.toNat ∧ c.toNat ≤ 122)

/-- Uppercase ASCII letter, the class `[A-Z]` (code points 65..90). -/
def upperAZ (c : Char) : Bool := decide (65 ≤ c.toNat ∧ c.toNat ≤ 90)

/-- ASCII decimal digit, the class `[0-9]` (code points 48..57). -/
def digit09 (c : Char) : Bool := decide (48 ≤ c.toNat ∧ c.toNat ≤ 57)

/-- Model of one step of `re.sub(r'[^a-zA-Z0-9]', '_', ...)` in
`clean_column_name` (main.py line 18): a character in the class
`[a-zA-Z0-9]` is kept, every other character becomes an underscore. -/
def sanitizeChar (c : Char) : Char :=
  if lowerAZ c || upperAZ c || digit09 c then c else '_'

/-- Embedding of `clean_column_name` (main.py lines 15-22):
`re.sub(r'[^a-zA-Z0-9]', '_', name.lower().strip())`, then if the first
character is a digit, prepend the literal prefix `col_`.  Python raises
`IndexError` on `clean_name[0]` when the sanitized string is empty
(input empty or whitespace-only); that case is `none`. -/
def clean_column_name (name : String) : Option String :=
  match (pyStripList (name.data.map Char.toLower)).map sanitizeChar with
  | [] => none
  | c :: cs =>
    if digit09 c then some (String.mk ('c' :: 'o' :: 'l' :: '_' :: c :: cs))
    else some (String.mk (c :: cs))

/-- Model of Python `str.isdigit` (ASCII range): true iff the string is
nonempty and every character is a decimal digit. -/
def pyStrIsDigit (s : String) : Bool :=
  !s.data.isEmpty && s.data.all digit09

/-- Model of Python `str.isspace`: true iff the string is nonempty and
every character is whitespace. -/
def pyStrIsSpace (s : String) : Bool :=
  !s.data.isEmpty && s.data.all isPySpaceChar

/-- Drop one optional leading sign, as Python `float` parsing allows. -/
def dropSign (l : List Char) : List Char :=
  match l with
  | '+' :: rest => rest
  | '-' :: rest => rest
  | _ => l

/-- Continuation of a digit run in Python `float` syntax: digits with
single underscores allowed between digits. -/
def digitsTail (l : List Char) : Bool :=
  match l with
  | [] => true
  | '_' :: c :: rest => digit09 c && digitsTail rest
  | c :: rest => digit09 c && digitsTail rest

/-- Nonempty digit run in Python `float` syntax (underscores allowed
between digits). -/
def digitRun (l : List Char) : Bool :=
  match l with
  | [] => false
  | c :: rest => digit09 c && digitsTail rest

/-- Split a character list at the first character satisfying `p`,
removing that character; `none` when no character matches. -/
def splitFirst (p : Char → Bool) : List Char → Option (List Char × List Char)
  | [] => none
  | c :: rest =>
    if p c then some ([], rest)
    else
      match splitFirst p rest with
      | some (a, b) => some (c :: a, b)
      | none => none

/-- Mantissa of Python `float` syntax: digits with at most one decimal
point and at least one digit. -/
def floatMantissa (l : List Char) : Bool :=
  match splitFirst (fun c => c = '.') l with
  | none => digitRun l
  | some (pre, post) =>
    (digitRun pre && (post.isEmpty || digitRun post)) || (pre.isEmpty && digitRun post)

/-- Unsigned numeric part of Python `float` syntax: mantissa with an
optional exponent introduced by `e` or `E` with an optional sign. -/
def floatBody (l : List Char) : Bool :=
  match splitFirst (fun c => c = 'e' || c = 'E') l with
  | none => floatMantissa l
  | some (pre, post) => floatMantissa pre && digitRun (dropSign post)

/-- Model of CPython `float(str)` acceptance: strip whitespace, one
optional sign, then case-insensitively `inf`, `infinity` or `nan`, or a
decimal mantissa with optional exponent.  True iff `float(val)` does not
raise `ValueError`. -/
def pyFloatAccepts (s : String) : Bool :=
  let t := dropSign (pyStripList s.data)
  let low := t.map Char.toLower
  low = "inf".data || low = "infinity".data || low = "nan".data || floatBody t

/-- First rule of `infer_column_type` (main.py line 27):
`all(val.isdigit() or val == '' for val in values)`. -/
def intRule (values : List String) : Bool :=
  values.all (fun val => pyStrIsDigit val || val = "")

/-- Second rule of `infer_column_type` (main.py lines 31-37): the
`try` block calls `float(val)` for every value that is nonempty and not
whitespace-only and returns NUMERIC when no call raises; so the rule
holds iff every such value is accepted by float parsing. -/
def numRule (values : List String) : Bool :=
  values.all (fun val => val = "" || pyStrIsSpace val || pyFloatAccepts val)

/-- Shape `YYYY-MM-DD`, the regex `^\d{4}-\d{2}-\d{2}$` (main.py line 41). -/
def isYMD (l : List Char) : Bool :=
  match l with
  | [a, b, c, d, h1, e, f, h2, g, h] =>
    digit09 a && digit09 b && digit09 c && digit09 d && h1 = '-' &&
    digit09 e && digit09 f && h2 = '-' && digit09 g && digit09 h
  | _ => false

/-- Shape `MM/DD/YYYY`, the regex `^\d{2}/\d{2}/\d{4}$` (main.py line 42). -/
def isMDY (l : List Char) : Bool :=
  match l with
  | [a, b, s1, c, d, s2, e, f, g, h] =>
    digit09 a && digit09 b && s1 = '/' && digit09 c && digit09 d && s2 = '/' &&
    digit09 e && digit09 f && digit09 g && digit09 h
  | _ => false

/-- Shape `DD-MM-YYYY`, the regex `^\d{2}-\d{2}-\d{4}$` (main.py line 43). -/
def isDMY (l : List Char) : Bool :=
  match l with
  | [a, b, s1, c, d, s2, e, f, g, h] =>
    digit09 a && digit09 b && s1 = '-' && digit09 c && digit09 d && s2 = '-' &&
    digit09 e && digit09 f && digit09 g && digit09 h
  | _ => false

/-- Membership of a value in one of the three date patterns of
`infer_column_type`. -/
def dateAny (val : String) : Bool :=
  isYMD val.data || isMDY val.data || isDMY val.data

/-- Third rule of `infer_column_type` (main.py line 46):
`all(any(re.match(p, val) for p in date_patterns) or val == ''
for val in values if val)` — only nonempty values are examined (the
trailing `or val == ''` of the source is kept although unreachable
after the filter). -/
def dateRule (values : List String) : Bool :=
  (values.filter (fun val => val ≠ "")).all (fun val => dateAny val || val = "")

/-- Embedding of `infer_column_type` (main.py lines 24-50): the four
rules in source order, first match wins, TEXT as fallback. -/
def infer_column_type (values : List String) : String :=
  if intRule values then "INTEGER"
  else if numRule values then "NUMERIC"
  else if dateRule values then "DATE"
  else "TEXT"

/-- Body of the column loop of `generate_create_table_statement`
(main.py lines 89-94): `pairs` is the remaining part of
`enumerate(zip(columns, column_types))` starting at index `i`, `total`
is `len(columns)`; each column line is
`"    {col} {col_type}"`, with `" PRIMARY KEY"` appended when
`col == pk_column`, and `",\n"` appended when `i < len(columns) - 1`. -/
def colsLoop (pk : String) (total : Nat) : Nat → List (String × String) → String
  | _, [] => ""
  | i, (c, t) :: rest =>
    "    " ++ c ++ " " ++ t ++ (if c = pk then " PRIMARY KEY" else "") ++
      (if i < total - 1 then ",\n" else "") ++ colsLoop pk total (i + 1) rest

/-- Text of one CREATE INDEX statement (main.py lines 102-103). -/
def indexSql (table_name col : String) : String :=
  "CREATE INDEX IF NOT EXISTS idx_" ++ table_name ++ "_" ++ col ++ " ON " ++
    table_name ++ " (" ++ col ++ ");"

/-- Embedding of `generate_create_table_statement` (main.py lines
81-106): the primary key column is `columns[0]` (Python raises
`IndexError` on an empty list, modelled as `none`); the CREATE TABLE
text is built by `colsLoop`; one CREATE INDEX statement is appended for
every column `col` with `col != pk_column`, in column order. -/
def generate_create_table_statement (table_name : String)
    (columns column_types : List String) : Option (String × List String) :=
  match columns with
  | [] => none
  | pk :: _ =>
    let sql := "CREATE TABLE IF NOT EXISTS " ++ table_name ++ " (\n" ++
      colsLoop pk columns.length 0 (columns.zip column_types) ++ "\n);"
    let indexes := (columns.filter (fun col => col ≠ pk)).map (indexSql table_name)
    some (sql, indexes)

/-- Table as created by the first pass of `create_all_tables`: its name
and the sanitized column names it was created with. -/
structure TableSchema where
  name : String
  columns : List String
deriving DecidableEq

/-- Model of the `information_schema.columns` lookup of main.py line
141: the database state after the first pass holds exactly the created
tables, so the column `col` exists in table `t1` iff some created table
named `t1` lists it. -/
def columnExists (tables : List TableSchema) (t1 col : String) : Bool :=
  tables.any (fun tb => tb.name = t1 && tb.columns.contains col)

/-- Text of the ALTER TABLE statement of main.py lines 144-148,
reproducing the triple-quoted f-string verbatim. -/
def fkSqlText (t1 t2 fk_column : String) : String :=
  "\n                    ALTER TABLE " ++ t1 ++ " \n                    ADD CONSTRAINT fk_" ++
    t1 ++ "_" ++ t2 ++ " \n                    FOREIGN KEY (" ++ fk_column ++
    ") REFERENCES " ++ t2 ++ " (id);\n                    "

/-- Body of the doubly nested pair loop of `create_all_tables` (main.py
lines 134-154) for one ordered pair: when the names differ and the
column `{t2}_id` exists in `t1`, the ALTER TABLE statement is executed
inside `try`; on success it is appended to `foreign_key_statements`, on
`psycopg2.Error` the failure is logged and the loop continues.  The
first component is the contribution to `foreign_key_statements`, the
second records that a constraint addition was attempted for the pair.
The oracle `exec` models the outcome of `cur.execute` on the statement. -/
def fkStep (exec : String → Except String Unit) (tables : List TableSchema)
    (t1 t2 : TableSchema) : List String × List (String × String) :=
  if t1.name ≠ t2.name then
    if columnExists tables t1.name (t2.name ++ "_id") then
      match exec (fkSqlText t1.name t2.name (t2.name ++ "_id")) with
      | Except.ok _ => ([fkSqlText t1.name t2.name (t2.name ++ "_id")], [(t1.name, t2.name)])
      | Except.error _ => ([], [(t1.name, t2.name)])
    else ([], [])
  else ([], [])

/-- Embedding of the second pass of `create_all_tables` (main.py lines
134-154): the nested loop over all ordered pairs of created tables,
accumulating emitted foreign-key statements and attempted pairs. -/
def create_all_tables_fks (exec : String → Except String Unit)
    (tables : List TableSchema) : List String × List (String × String) :=
  tables.foldl (fun acc t1 =>
    tables.foldl (fun acc2 t2 =>
      (acc2.1 ++ (fkStep exec tables t1 t2).1, acc2.2 ++ (fkStep exec tables t1 t2).2)) acc)
    ([], [])

/-- Candidate foreign-key pairs in loop order, following the words of
the specification: for every ordered pair of distinct tables (A, B),
the pair is a candidate iff the column `{B}_id` exists in A. -/
def fkCandidates (tables : List TableSchema) : List (String × String) :=
  tables.flatMap (fun t1 =>
    tables.filterMap (fun t2 =>
      if t1.name ≠ t2.name ∧ columnExists tables t1.name (t2.name ++ "_id") = true
      then some (t1.name, t2.name) else none))

/-- Embedding of the value construction of `import_csv_data` (main.py
line 182): for each column of `valid_columns`, Python evaluates
`clean_headers.index(col)` (raising `ValueError` when absent, modelled
as `none` for the whole row) and takes `row[idx]` when `idx < len(row)`
and `None` otherwise. -/
def buildInsertValues (clean_headers row : List String) :
    List String → Option (List (Option String))
  | [] => some []
  | col :: rest =>
    match clean_headers.findIdx? (fun y => y = col) with
    | none => none
    | some idx =>
      match buildInsertValues clean_headers row rest with
      | none => none
      | some vs => some ((if idx < row.length then row[idx]? else none) :: vs)

/-- Embedding of `valid_columns` (main.py line 178): the cleaned headers
that also occur among the database columns of the target table. -/
def validColumns (clean_headers db_columns : List String) : List String :=
  clean_headers.filter (fun col => db_columns.contains col)

/-- Sanitized-identifier well-formedness, following the words of the
specification: nonempty, first character in the class `[a-z_]`, every
character in the class `[a-z0-9_]` (the regex `^[a-z_][a-z0-9_]*$`). -/
def identOk (r : String) : Bool :=
  match r.data with
  | [] => false
  | c :: cs =>
    (lowerAZ c || c = '_') && (c :: cs).all (fun d => lowerAZ d || digit09 d || d = '_')

/-- Join a list of strings with a separator, the shape of the column
block of a CREATE TABLE statement. -/
def joinSep (sep : String) : List String → String
  | [] => ""
  | [x] => x
  | x :: y :: rest => x ++ sep ++ joinSep sep (y :: rest)

/-- Success of one statement execution, the discriminator of the
`try`/`except psycopg2.Error` block around `cur.execute(fk_sql)`. -/
def execOk (e : Except String Unit) : Bool :=
  match e with
  | Except.ok _ => true
  | Except.error _ => false

/-- Character class `[a-z0-9_]` of sanitized identifiers. -/
def goodChar (c : Char) : Bool :=
  lowerAZ c || digit09 c || c = '_'

/-- Foreign-key statement text of a candidate pair (fromTable, toTable):
the referencing column is the target table name suffixed with `_id`. -/
def fkStatementOf (p : String × String) : String :=
  fkSqlText p.1 p.2 (p.2 ++ "_id")

/-! Helper lemmas about the ASCII case mapping. -/

theorem char_toNat_ofNat_valid {n : Nat} (h : n.isValidChar) : (Char.ofNat n).toNat = n := by
  simp [Char.ofNat, Char.ofNatAux, dif_pos h, Char.toNat, UInt32.toNat]

theorem toLower_toNat (c : Char) :
    (Char.toLower c).toNat = if 65 ≤ c.toNat ∧ c.toNat ≤ 90 then c.toNat + 32 else c.toNat := by
  have h : Char.toLower c =
      if 65 ≤ c.toNat ∧ c.toNat ≤ 90 then Char.ofNat (c.toNat + 32) else c := rfl
  rw [h]
  by_cases hc : 65 ≤ c.toNat ∧ c.toNat ≤ 90
  · rw [if_pos hc, if_pos hc, char_toNat_ofNat_valid (by left; omega)]
  · rw [if_neg hc, if_neg hc]

theorem toLower_not_upper (c : Char) :
    ¬(65 ≤ (Char.toLower c).toNat ∧ (Char.toLower c).toNat ≤ 90) := by
  rw [toLower_toNat]; split <;> omega

theorem toLower_eq_self_of_not_upper (c : Char) (h : ¬(65 ≤ c.toNat ∧ c.toNat ≤ 90)) :
    Char.toLower c = c := by
  have hdef : Char.toLower c =
      if 65 ≤ c.toNat ∧ c.toNat ≤ 90 then Char.ofNat (c.toNat + 32) else c := rfl
  rw [hdef, if_neg h]

theorem not_space_of_toNat_ge (c : Char) (h : 33 ≤ c.toNat) : isPySpaceChar c = false := by
  simp only [isPySpaceChar, Bool.or_eq_false_iff, decide_eq_false_iff_not]
  refine ⟨⟨⟨⟨⟨?_, ?_⟩, ?_⟩, ?_⟩, ?_⟩, ?_⟩ <;>
    (intro he; subst he; exact absurd h (by decide))

theorem isPySpaceChar_toLower (c : Char) :
    isPySpaceChar (Char.toLower c) = isPySpaceChar c := by
  by_cases hc : 65 ≤ c.toNat ∧ c.toNat ≤ 90
  · have h1 : isPySpaceChar (Char.toLower c) = false := by
      apply not_space_of_toNat_ge
      rw [toLower_toNat, if_pos hc]; omega
    have h2 : isPySpaceChar c = false := not_space_of_toNat_ge c (by omega)
    rw [h1, h2]
  · rw [toLower_eq_self_of_not_upper c hc]

/-! Behavior of the sanitizer character pipeline. -/

theorem goodChar_sanitize_toLower (c : Char) :
    goodChar (sanitizeChar (Char.toLower c)) = true := by
  unfold sanitizeChar
  split
  · rename_i hkeep
    have hup : upperAZ (Char.toLower c) = false := by
      simp only [upperAZ, decide_eq_false_iff_not]
      exact toLower_not_upper c
    rw [hup] at hkeep
    simp only [Bool.or_false, Bool.or_eq_true] at hkeep
    simp only [goodChar, Bool.or_eq_true]
    rcases hkeep with h | h
    · exact Or.inl (Or.inl h)
    · exact Or.inl (Or.inr h)
  · decide

theorem toLower_of_good (c : Char) (h : goodChar c = true) : Char.toLower c = c := by
  simp only [goodChar, Bool.or_eq_true, lowerAZ, digit09, decide_eq_true_eq] at h
  rcases h with (h | h) | h
  · exact toLower_eq_self_of_not_upper c (by omega)
  · exact toLower_eq_self_of_not_upper c (by omega)
  · subst h; decide

theorem sanitizeChar_of_good (c : Char) (h : goodChar c = true) : sanitizeChar c = c := by
  simp only [goodChar, Bool.or_eq_true, decide_eq_true_eq] at h
  rcases h with (h | h) | h
  · unfold sanitizeChar
    rw [if_pos (by simp only [h, Bool.true_or, Bool.or_true])]
  · unfold sanitizeChar
    rw [if_pos (by simp only [h, Bool.true_or, Bool.or_true])]
  · subst h; decide

theorem not_space_of_good (c : Char) (h : goodChar c = true) : isPySpaceChar c = false := by
  simp only [goodChar, Bool.or_eq_true, lowerAZ, digit09, decide_eq_true_eq] at h
  rcases h with (h | h) | h
  · exact not_space_of_toNat_ge c (by omega)
  · exact not_space_of_toNat_ge c (by omega)
  · subst h; decide

/-! List-level lemmas about stripping. -/

theorem dropWhile_eq_self_of_all_false {p : Char → Bool} :
    ∀ (l : List Char), (∀ c ∈ l, p c = false) → l.dropWhile p = l := by
  intro l h
  cases l with
  | nil => rfl
  | cons c rest =>
    rw [List.dropWhile_cons, if_neg]
    simp [h c (List.mem_cons_self c rest)]

theorem pyStripList_eq_self_of_good (l : List Char)
    (h : ∀ c ∈ l, goodChar c = true) : pyStripList l = l := by
  unfold pyStripList
  have h1 : l.dropWhile isPySpaceChar = l :=
    dropWhile_eq_self_of_all_false l (fun c hc => not_space_of_good c (h c hc))
  rw [h1]
  have h2 : l.reverse.dropWhile isPySpaceChar = l.reverse :=
    dropWhile_eq_self_of_all_false l.reverse
      (fun c hc => not_space_of_good c (h c (List.mem_reverse.mp hc)))
  rw [h2, List.reverse_reverse]

theorem dropWhile_ne_nil_of_exists {p : Char → Bool} :
    ∀ (l : List Char), (∃ c ∈ l, p c = false) → l.dropWhile p ≠ [] := by
  intro l h
  induction l with
  | nil => obtain ⟨c, hc, _⟩ := h; exact absurd hc (List.not_mem_nil c)
  | cons c rest ih =>
    rw [List.dropWhile_cons]
    by_cases hp : p c = true
    · rw [if_pos hp]
      apply ih
      obtain ⟨d, hd, hdp⟩ := h
      rcases List.mem_cons.mp hd with h1 | h1
      · subst h1; rw [hp] at hdp; exact absurd hdp (by decide)
      · exact ⟨d, h1, hdp⟩
    · rw [if_neg hp]; exact List.cons_ne_nil c rest

theorem mem_of_mem_dropWhile {p : Char → Bool} {c : Char} {l : List Char}
    (h : c ∈ l.dropWhile p) : c ∈ l :=
  (List.dropWhile_sublist p (l := l)).subset h

theorem exists_false_of_dropWhile_ne_nil {p : Char → Bool} :
    ∀ (l : List Char), l.dropWhile p ≠ [] → ∃ c ∈ l.dropWhile p, p c = false := by
  intro l h
  induction l with
  | nil => exact absurd rfl h
  | cons c rest ih =>
    rw [List.dropWhile_cons] at h ⊢
    by_cases hp : p c = true
    · rw [if_pos hp] at h ⊢; exact ih h
    · rw [if_neg hp]
      exact ⟨c, List.mem_cons_self c rest, by simpa using hp⟩

theorem pyStripList_ne_nil (l : List Char) (h : ∃ c ∈ l, isPySpaceChar c = false) :
    pyStripList l ≠ [] := by
  unfold pyStripList
  simp only [ne_eq, List.reverse_eq_nil_iff]
  apply dropWhile_ne_nil_of_exists
  have h1 : l.dropWhile isPySpaceChar ≠ [] := dropWhile_ne_nil_of_exists l h
  obtain ⟨c, hc, hcp⟩ := exists_false_of_dropWhile_ne_nil l h1
  exact ⟨c, List.mem_reverse.mpr hc, hcp⟩

theorem string_mk_data (r : String) : String.mk r.data = r := rfl

theorem mem_of_mem_pyStripList {c : Char} {l : List Char} (h : c ∈ pyStripList l) : c ∈ l := by
  unfold pyStripList at h
  rw [List.mem_reverse] at h
  have h2 := mem_of_mem_dropWhile h
  rw [List.mem_reverse] at h2
  exact mem_of_mem_dropWhile h2

theorem goodChar_of_mem_clean (s : String) (c : Char)
    (hc : c ∈ (pyStripList (s.data.map Char.toLower)).map sanitizeChar) :
    goodChar c = true := by
  obtain ⟨d, hd, rfl⟩ := List.mem_map.mp hc
  obtain ⟨e, _, rfl⟩ := List.mem_map.mp (mem_of_mem_pyStripList hd)
  exact goodChar_sanitize_toLower e

theorem clean_column_name_of_good (r : String)
    (hgood : ∀ c ∈ r.data, goodChar c = true)
    (hfirst : ∀ c cs, r.data = c :: cs → digit09 c = false)
    (hne : r.data ≠ []) :
    clean_column_name r = some r := by
  unfold clean_column_name
  have hmap : r.data.map Char.toLower = r.data := by
    rw [List.map_congr_left (fun c hc => toLower_of_good c (hgood c hc))]
    exact List.map_id' r.data
  rw [hmap, pyStripList_eq_self_of_good r.data hgood]
  have hsan : r.data.map sanitizeChar = r.data := by
    rw [List.map_congr_left (fun c hc => sanitizeChar_of_good c (hgood c hc))]
    exact List.map_id' r.data
  rw [hsan]
  cases hdata : r.data with
  | nil => exact absurd hdata hne
  | cons c cs =>
    show (if digit09 c = true then some (String.mk ('c' :: 'o' :: 'l' :: '_' :: c :: cs))
      else some (String.mk (c :: cs))) = some r
    rw [if_neg (by rw [hfirst c cs hdata]; exact Bool.false_ne_true)]
    rw [← hdata, string_mk_data]

/-- Claim C4: for every header string H on which sanitization is defined
(the sanitized form is nonempty, so no index error), clean_column_name
is idempotent — sanitizing the result returns it unchanged — and the
result matches the identifier regex ^[a-z_][a-z0-9_]*$ (only lowercase
letters, digits and underscores, never beginning with a digit). -/
theorem claim_C4 (s r : String) (h : clean_column_name s = some r) :
    clean_column_name r = some r ∧ identOk r = true := by
  unfold clean_column_name at h
  cases hdata : (pyStripList (s.data.map Char.toLower)).map sanitizeChar with
  | nil => rw [hdata] at h; exact absurd h (by simp)
  | cons c cs =>
    rw [hdata] at h
    have hgoodl : ∀ d ∈ c :: cs, goodChar d = true := by
      intro d hd
      rw [← hdata] at hd
      exact goodChar_of_mem_clean s d hd
    have h2 : (if digit09 c = true then some (String.mk ('c' :: 'o' :: 'l' :: '_' :: c :: cs))
        else some (String.mk (c :: cs))) = some r := h
    by_cases hdig : digit09 c = true
    · rw [if_pos hdig] at h2
      have hr : r = String.mk ('c' :: 'o' :: 'l' :: '_' :: c :: cs) := (Option.some.inj h2).symm
      have hrdata : r.data = 'c' :: 'o' :: 'l' :: '_' :: c :: cs := by rw [hr]
      have hgoodr : ∀ d ∈ r.data, goodChar d = true := by
        rw [hrdata]
        intro d hd
        simp only [List.mem_cons] at hd
        rcases hd with rfl | rfl | rfl | rfl | hd
        · decide
        · decide
        · decide
        · decide
        · exact hgoodl d (List.mem_cons.mpr hd)
      refine ⟨clean_column_name_of_good r hgoodr ?_ (by rw [hrdata]; simp), ?_⟩
      · intro c0 cs0 heq
        rw [hrdata] at heq
        cases heq
        decide
      · unfold identOk
        rw [hrdata]
        show ((lowerAZ 'c' || 'c' = '_') &&
          ('c' :: 'o' :: 'l' :: '_' :: c :: cs).all (fun d => lowerAZ d || digit09 d || d = '_')) = true
        rw [Bool.and_eq_true]
        refine ⟨by decide, ?_⟩
        apply List.all_eq_true.mpr
        intro d hd
        have hg := hgoodr d (by rw [hrdata]; exact hd)
        unfold goodChar at hg
        exact hg
    · rw [if_neg hdig] at h2
      have hr : r = String.mk (c :: cs) := (Option.some.inj h2).symm
      have hrdata : r.data = c :: cs := by rw [hr]
      have hgoodr : ∀ d ∈ r.data, goodChar d = true := by
        rw [hrdata]; exact hgoodl
      have hdigf : digit09 c = false := Bool.not_eq_true _ |>.mp hdig
      refine ⟨clean_column_name_of_good r hgoodr ?_ (by rw [hrdata]; simp), ?_⟩
      · intro c0 cs0 heq
        rw [hrdata] at heq
        cases heq
        exact hdigf
      · unfold identOk
        rw [hrdata]
        show ((lowerAZ c || c = '_') &&
          (c :: cs).all (fun d => lowerAZ d || digit09 d || d = '_')) = true
        rw [Bool.and_eq_true]
        constructor
        · have hg := hgoodl c (List.mem_cons_self c cs)
          unfold goodChar at hg
          rw [hdigf] at hg
          simpa using hg
        · apply List.all_eq_true.mpr
          intro d hd
          have hg := hgoodl d hd
          unfold goodChar at hg
          exact hg

/-- Witness for claim C4 at the concrete header "My Col!", whose
sanitized identifier is "my_col_". -/
theorem claim_C4_witness :
    clean_column_name "My Col!" = some "my_col_" ∧
      (clean_column_name "my_col_" = some "my_col_" ∧ identOk "my_col_" = true) :=
  ⟨by decide, claim_C4 "My Col!" "my_col_" (by decide)⟩

/-- Claim C5 (amended): clean_column_name returns a sanitized identifier
without raising for every input string that contains at least one
non-whitespace character.  The original claim excluded only the empty
string; whitespace-only strings also fail, see the counterexample. -/
theorem claim_C5 (s : String) (h : s.data.all isPySpaceChar = false) :
    ∃ r, clean_column_name s = some r := by
  have hex : ∃ c ∈ s.data, isPySpaceChar c = false := by
    rcases List.all_eq_false.mp h with ⟨c, hc, hcp⟩
    exact ⟨c, hc, Bool.not_eq_true _ |>.mp hcp⟩
  have hex2 : ∃ c ∈ s.data.map Char.toLower, isPySpaceChar c = false := by
    obtain ⟨c, hc, hcp⟩ := hex
    exact ⟨Char.toLower c, List.mem_map_of_mem Char.toLower hc,
      by rw [isPySpaceChar_toLower]; exact hcp⟩
  have hne := pyStripList_ne_nil _ hex2
  unfold clean_column_name
  cases hdata : (pyStripList (s.data.map Char.toLower)).map sanitizeChar with
  | nil =>
    rw [List.map_eq_nil_iff] at hdata
    exact absurd hdata hne
  | cons c cs =>
    by_cases hdig : digit09 c = true
    · refine ⟨String.mk ('c' :: 'o' :: 'l' :: '_' :: c :: cs), ?_⟩
      show (if digit09 c = true then some (String.mk ('c' :: 'o' :: 'l' :: '_' :: c :: cs))
        else some (String.mk (c :: cs))) = _
      rw [if_pos hdig]
    · refine ⟨String.mk (c :: cs), ?_⟩
      show (if digit09 c = true then some (String.mk ('c' :: 'o' :: 'l' :: '_' :: c :: cs))
        else some (String.mk (c :: cs))) = _
      rw [if_neg hdig]

/-- Witness for claim C5 at the concrete input "a b". -/
theorem claim_C5_witness :
    ("a b".data.all isPySpaceChar = false) ∧ ∃ r, clean_column_name "a b" = some r :=
  ⟨by decide, claim_C5 "a b" (by decide)⟩

/-- Counterexample to claim C5 as stated: the single-space string is not
the empty string, yet clean_column_name raises an index error on it
(the sanitized form of a whitespace-only string is empty, and the
source then evaluates clean_name[0]). -/
theorem claim_C5_counterexample :
    clean_column_name " " = none ∧ " " ≠ "" := by
  constructor
  · rfl
  · decide

/-- Claim C6: a sample in which each value is empty or composed solely
of decimal digits is classified INTEGER; and any sample containing a
signed value such as "+1" or "-1", or a thousands-separated value such
as "1,000", fails the first rule and is therefore not classified
INTEGER. -/
theorem claim_C6 :
    (∀ values : List String, intRule values = true → infer_column_type values = "INTEGER") ∧
    (∀ values : List String, ("+1" ∈ values ∨ "-1" ∈ values ∨ "1,000" ∈ values) →
      intRule values = false ∧ infer_column_type values ≠ "INTEGER") := by
  constructor
  · intro values h
    unfold infer_column_type
    rw [if_pos h]
  · intro values h
    have hfail : intRule values = false := by
      apply List.all_eq_false.mpr
      rcases h with h | h | h
      · exact ⟨"+1", h, by decide⟩
      · exact ⟨"-1", h, by decide⟩
      · exact ⟨"1,000", h, by decide⟩
    refine ⟨hfail, ?_⟩
    unfold infer_column_type
    rw [if_neg (by rw [hfail]; exact Bool.false_ne_true)]
    split
    · decide
    split
    · decide
    · decide

/-- Witness for claim C6: the all-digit sample ["1","2",""] is INTEGER,
and the sample ["+1"] fails the first rule and is not INTEGER. -/
theorem claim_C6_witness :
    infer_column_type ["1", "2", ""] = "INTEGER" ∧
      (intRule ["+1"] = false ∧ infer_column_type ["+1"] ≠ "INTEGER") :=
  ⟨claim_C6.1 ["1", "2", ""] (by decide), claim_C6.2 ["+1"] (Or.inl (by decide))⟩

/-- Claim C7: when the INTEGER and NUMERIC rules both fail and every
non-empty value matches one of the three date shapes, the sample is
classified DATE; the check is syntactic, so the calendar-invalid
"13-45-9999" still yields DATE, while ["abc","2023-01-01"] falls
through to TEXT. -/
theorem claim_C7 :
    (∀ values : List String, intRule values = false → numRule values = false →
      dateRule values = true → infer_column_type values = "DATE") ∧
    infer_column_type ["13-45-9999"] = "DATE" ∧
    infer_column_type ["abc", "2023-01-01"] = "TEXT" := by
  refine ⟨?_, by decide, by decide⟩
  intro values h1 h2 h3
  unfold infer_column_type
  rw [if_neg (by rw [h1]; exact Bool.false_ne_true),
    if_neg (by rw [h2]; exact Bool.false_ne_true), if_pos h3]

/-- Witness for claim C7 at the concrete sample ["12/31/2023"]. -/
theorem claim_C7_witness : infer_column_type ["12/31/2023"] = "DATE" :=
  claim_C7.1 ["12/31/2023"] (by decide) (by decide) (by decide)

/-- Claim C8: on the empty sample infer_column_type deterministically
returns INTEGER, the first rule in evaluation order being vacuously
true over zero values. -/
theorem claim_C8 : infer_column_type [] = "INTEGER" ∧ intRule [] = true :=
  ⟨rfl, rfl⟩

/-- Claim C10: whenever the INTEGER rule fails and every non-empty,
non-whitespace-only value is accepted by float parsing, the sample is
classified NUMERIC; in particular ["nan","inf"] and ["1e5"] are
NUMERIC, not TEXT. -/
theorem claim_C10 :
    (∀ values : List String, intRule values = false → numRule values = true →
      infer_column_type values = "NUMERIC") ∧
    infer_column_type ["nan", "inf"] = "NUMERIC" ∧
    infer_column_type ["1e5"] = "NUMERIC" := by
  refine ⟨?_, by decide, by decide⟩
  intro values h1 h2
  unfold infer_column_type
  rw [if_neg (by rw [h1]; exact Bool.false_ne_true), if_pos h2]

/-- Witness for claim C10 at the concrete sample ["0.5","2"]. -/
theorem claim_C10_witness : infer_column_type ["0.5", "2"] = "NUMERIC" :=
  claim_C10.1 ["0.5", "2"] (by decide) (by decide)

/-! Fold machinery for the nested pair loop of the relationship
heuristic. -/

theorem foldl_pair_append {α β γ : Type} (f : α → List β × List γ) :
    ∀ (l : List α) (a : List β × List γ),
      l.foldl (fun acc x => (acc.1 ++ (f x).1, acc.2 ++ (f x).2)) a =
        (a.1 ++ l.flatMap (fun x => (f x).1), a.2 ++ l.flatMap (fun x => (f x).2)) := by
  intro l
  induction l with
  | nil => intro a; simp
  | cons x xs ih =>
    intro a
    rw [List.foldl_cons, ih]
    simp [List.flatMap_cons, List.append_assoc]

theorem fks_loop_eq (exec : String → Except String Unit) (tables : List TableSchema) :
    ∀ (l : List TableSchema) (a : List String × List (String × String)),
      l.foldl (fun acc t1 =>
        tables.foldl (fun acc2 t2 =>
          (acc2.1 ++ (fkStep exec tables t1 t2).1, acc2.2 ++ (fkStep exec tables t1 t2).2)) acc) a =
      (a.1 ++ l.flatMap (fun t1 => tables.flatMap (fun t2 => (fkStep exec tables t1 t2).1)),
       a.2 ++ l.flatMap (fun t1 => tables.flatMap (fun t2 => (fkStep exec tables t1 t2).2))) := by
  intro l
  induction l with
  | nil => intro a; simp
  | cons t1 ts ih =>
    intro a
    rw [List.foldl_cons, foldl_pair_append (fun t2 => fkStep exec tables t1 t2) tables a, ih]
    simp [List.flatMap_cons, List.append_assoc]

theorem create_fks_eq (exec : String → Except String Unit) (tables : List TableSchema) :
    create_all_tables_fks exec tables =
      (tables.flatMap (fun t1 => tables.flatMap (fun t2 => (fkStep exec tables t1 t2).1)),
       tables.flatMap (fun t1 => tables.flatMap (fun t2 => (fkStep exec tables t1 t2).2))) := by
  unfold create_all_tables_fks
  rw [fks_loop_eq exec tables tables ([], [])]
  simp

theorem fkStep_snd (exec : String → Except String Unit) (tables : List TableSchema)
    (t1 t2 : TableSchema) :
    (fkStep exec tables t1 t2).2 =
      if t1.name ≠ t2.name ∧ columnExists tables t1.name (t2.name ++ "_id") = true
      then [(t1.name, t2.name)] else [] := by
  unfold fkStep
  by_cases h1 : t1.name = t2.name
  · rw [if_neg (by simpa using h1), if_neg (by tauto)]
  · rw [if_pos h1]
    by_cases h2 : columnExists tables t1.name (t2.name ++ "_id") = true
    · rw [if_pos h2, if_pos ⟨h1, h2⟩]
      cases exec (fkSqlText t1.name t2.name (t2.name ++ "_id")) with
      | ok _ => rfl
      | error _ => rfl
    · rw [if_neg h2, if_neg (by tauto)]

theorem fkStep_fst (exec : String → Except String Unit) (tables : List TableSchema)
    (t1 t2 : TableSchema) :
    (fkStep exec tables t1 t2).1 =
      if t1.name ≠ t2.name ∧ columnExists tables t1.name (t2.name ++ "_id") = true
      then (if execOk (exec (fkStatementOf (t1.name, t2.name))) = true
        then [fkStatementOf (t1.name, t2.name)] else [])
      else [] := by
  unfold fkStep
  by_cases h1 : t1.name = t2.name
  · rw [if_neg (by simpa using h1), if_neg (by tauto)]
  · rw [if_pos h1]
    by_cases h2 : columnExists tables t1.name (t2.name ++ "_id") = true
    · rw [if_pos h2, if_pos ⟨h1, h2⟩]
      cases hexec : exec (fkSqlText t1.name t2.name (t2.name ++ "_id")) with
      | ok u =>
        have : execOk (exec (fkStatementOf (t1.name, t2.name))) = true := by
          show execOk (exec (fkSqlText t1.name t2.name (t2.name ++ "_id"))) = true
          rw [hexec]; rfl
        rw [if_pos this]; rfl
      | error e =>
        have : ¬execOk (exec (fkStatementOf (t1.name, t2.name))) = true := by
          show ¬execOk (exec (fkSqlText t1.name t2.name (t2.name ++ "_id"))) = true
          rw [hexec]; exact Bool.false_ne_true
        rw [if_neg this]
    · rw [if_neg h2, if_neg (by tauto)]

theorem flatMap_fkStep_snd (exec : String → Except String Unit) (tables : List TableSchema)
    (t1 : TableSchema) :
    ∀ l : List TableSchema,
      l.flatMap (fun t2 => (fkStep exec tables t1 t2).2) =
        l.filterMap (fun t2 =>
          if t1.name ≠ t2.name ∧ columnExists tables t1.name (t2.name ++ "_id") = true
          then some (t1.name, t2.name) else none) := by
  intro l
  induction l with
  | nil => rfl
  | cons t2 ts ih =>
    rw [List.flatMap_cons, fkStep_snd exec tables t1 t2, ih, List.filterMap_cons]
    by_cases h : t1.name ≠ t2.name ∧ columnExists tables t1.name (t2.name ++ "_id") = true
    · rw [if_pos h, if_pos h]; rfl
    · rw [if_neg h, if_neg h]; rfl

theorem flatMap_fkStep_fst (exec : String → Except String Unit) (tables : List TableSchema)
    (t1 : TableSchema) :
    ∀ l : List TableSchema,
      l.flatMap (fun t2 => (fkStep exec tables t1 t2).1) =
        ((l.filterMap (fun t2 =>
            if t1.name ≠ t2.name ∧ columnExists tables t1.name (t2.name ++ "_id") = true
            then some (t1.name, t2.name) else none)).filter
          (fun p => execOk (exec (fkStatementOf p)))).map fkStatementOf := by
  intro l
  induction l with
  | nil => rfl
  | cons t2 ts ih =>
    rw [List.flatMap_cons, fkStep_fst exec tables t1 t2, ih, List.filterMap_cons]
    by_cases h : t1.name ≠ t2.name ∧ columnExists tables t1.name (t2.name ++ "_id") = true
    · rw [if_pos h, if_pos h]
      show _ = (((t1.name, t2.name) :: List.filterMap (fun t2 =>
          if t1.name ≠ t2.name ∧ columnExists tables t1.name (t2.name ++ "_id") = true
          then some (t1.name, t2.name) else none) ts).filter
        (fun p => execOk (exec (fkStatementOf p)))).map fkStatementOf
      rw [List.filter_cons]
      by_cases hok : execOk (exec (fkStatementOf (t1.name, t2.name))) = true
      · rw [if_pos hok, if_pos hok, List.map_cons]; rfl
      · rw [if_neg hok, if_neg hok]; rfl
    · rw [if_neg h, if_neg h]; rfl

theorem filter_flatMap_list {α β : Type} (l : List α) (f : α → List β) (p : β → Bool) :
    (l.flatMap f).filter p = l.flatMap (fun x => (f x).filter p) := by
  induction l with
  | nil => rfl
  | cons x xs ih => simp only [List.flatMap_cons, List.filter_append, ih]

theorem map_flatMap_list {α β γ : Type} (l : List α) (f : α → List β) (g : β → γ) :
    (l.flatMap f).map g = l.flatMap (fun x => (f x).map g) := by
  induction l with
  | nil => rfl
  | cons x xs ih => simp only [List.flatMap_cons, List.map_append, ih]

theorem fks_attempted_eq (exec : String → Except String Unit) (tables : List TableSchema) :
    (create_all_tables_fks exec tables).2 = fkCandidates tables := by
  rw [create_fks_eq]
  unfold fkCandidates
  exact congrArg tables.flatMap (funext fun t1 => flatMap_fkStep_snd exec tables t1 tables)

theorem fks_emitted_eq (exec : String → Except String Unit) (tables : List TableSchema) :
    (create_all_tables_fks exec tables).1 =
      ((fkCandidates tables).filter (fun p => execOk (exec (fkStatementOf p)))).map
        fkStatementOf := by
  rw [create_fks_eq]
  unfold fkCandidates
  rw [filter_flatMap_list, map_flatMap_list]
  exact congrArg tables.flatMap (funext fun t1 => flatMap_fkStep_fst exec tables t1 tables)

/-- Claim C2 (amended): for every set of created tables, the
relationship heuristic emits the foreign-key statement for the ordered
pair (A, B) if and only if (A, B) is a candidate — the names differ and
the identifier formed from the target table name plus "_id" occurs
among the columns of A; and for the concrete tables orders
(id, customer_id) and customer (id, name) exactly one statement is
emitted, from orders.customer_id to customer.id, and none in the
reverse direction.  With the plural table name customers of the
original claim the probed column is customers_id, which orders lacks,
so no statement is emitted there (see the counterexample). -/
theorem claim_C2 :
    (∀ tables : List TableSchema,
      (create_all_tables_fks (fun _ => Except.ok ()) tables).1 =
        (fkCandidates tables).map fkStatementOf) ∧
    (create_all_tables_fks (fun _ => Except.ok ())
        [⟨"orders", ["id", "customer_id"]⟩, ⟨"customer", ["id", "name"]⟩]).1 =
      [fkSqlText "orders" "customer" "customer_id"] := by
  constructor
  · intro tables
    rw [fks_emitted_eq]
    congr 1
    apply List.filter_eq_self.mpr
    intro p _
    rfl
  · rfl

/-- Counterexample to claim C2 as stated: with tables orders
(columns id, customer_id) and customers (columns id, name) the claim
asserts that exactly one foreign-key statement is emitted, but the code
probes for the column customers_id — the table name with the _id
suffix — which orders does not have, so zero statements are emitted. -/
theorem claim_C2_counterexample :
    (create_all_tables_fks (fun _ => Except.ok ())
        [⟨"orders", ["id", "customer_id"]⟩, ⟨"customers", ["id", "name"]⟩]).1 = [] := by
  rfl

/-- Claim C3: for every failure pattern of constraint additions and
every list of created tables, the heuristic still attempts every
candidate pair (the attempted-pair trace equals the full candidate
list, independent of the failures), and the emitted statements are
exactly those of the candidate pairs whose execution succeeded — a
failing pair is skipped in isolation and never aborts the batch. -/
theorem claim_C3 (exec : String → Except String Unit) (tables : List TableSchema) :
    (create_all_tables_fks exec tables).2 = fkCandidates tables ∧
    (create_all_tables_fks exec tables).1 =
      ((fkCandidates tables).filter (fun p => execOk (exec (fkStatementOf p)))).map
        fkStatementOf :=
  ⟨fks_attempted_eq exec tables, fks_emitted_eq exec tables⟩

/-! Row construction of the importer. -/

theorem buildInsertValues_eq (clean_headers row : List String) :
    ∀ cols : List String, (∀ c ∈ cols, c ∈ clean_headers) →
      buildInsertValues clean_headers row cols =
        some (cols.map (fun col => row[clean_headers.findIdx (fun y => y = col)]?)) := by
  intro cols h
  induction cols with
  | nil => rfl
  | cons col rest ih =>
    have hmem : col ∈ clean_headers := h col (List.mem_cons_self col rest)
    have hsome : (clean_headers.findIdx? (fun y => y = col)).isSome = true := by
      rw [List.findIdx?_isSome]
      exact List.any_eq_true.mpr ⟨col, hmem, by simp⟩
    obtain ⟨j, hj⟩ := Option.isSome_iff_exists.mp hsome
    obtain ⟨hjlt, hjeq⟩ := List.findIdx?_eq_some_iff_findIdx_eq.mp hj
    unfold buildInsertValues
    rw [hj, ih (fun c hc => h c (List.mem_cons_of_mem col hc))]
    show some ((if j < row.length then row[j]? else none) ::
        rest.map (fun col => row[clean_headers.findIdx (fun y => y = col)]?)) =
      some ((col :: rest).map (fun col => row[clean_headers.findIdx (fun y => y = col)]?))
    rw [List.map_cons, hjeq]
    by_cases hlt : j < row.length
    · rw [if_pos hlt]
    · rw [if_neg hlt, List.getElem?_eq_none (Nat.le_of_not_lt hlt)]

/-- Claim C9: for every data row, building the insert values for the
valid columns never raises: the result is the list that maps each valid
column to the optional row field at the index of that column among the
cleaned headers — which is None (null) exactly when that position is
beyond the row's length, and the present field otherwise (the second
and third conjuncts make the two cases of the optional lookup
explicit). -/
theorem claim_C9 (clean_headers db_columns row : List String) :
    buildInsertValues clean_headers row (validColumns clean_headers db_columns) =
      some ((validColumns clean_headers db_columns).map
        (fun col => row[clean_headers.findIdx (fun y => y = col)]?)) ∧
    (∀ idx : Nat, row.length ≤ idx → row[idx]? = none) ∧
    (∀ (idx : Nat) (h : idx < row.length), row[idx]? = some (row.get ⟨idx, h⟩)) := by
  refine ⟨?_, ?_, ?_⟩
  · exact buildInsertValues_eq clean_headers row _
      (fun c hc => List.mem_of_mem_filter hc)
  · intro idx hidx
    exact List.getElem?_eq_none hidx
  · intro idx h
    rw [List.getElem?_eq_getElem h]
    rfl

/-- Witness for claim C9: headers [a, b, c], database columns [a, c],
and the short row ["1"]; column a receives the present field and column
c, whose header index 2 exceeds the row length, receives null. -/
theorem claim_C9_witness :
    buildInsertValues ["a", "b", "c"] ["1"] (validColumns ["a", "b", "c"] ["a", "c"]) =
        some [some "1", none] ∧
      (["1"] : List String)[5]? = none ∧ (["1"] : List String)[0]? = some "1" := by
  refine ⟨?_, ?_, ?_⟩
  · exact (claim_C9 ["a", "b", "c"] ["a", "c"] ["1"]).1
  · exact (claim_C9 ["a", "b", "c"] ["a", "c"] ["1"]).2.1 5 (by decide)
  · exact (claim_C9 ["a", "b", "c"] ["a", "c"] ["1"]).2.2 0 (by decide)

/-! Schema synthesis. -/

theorem colsLoop_eq (pk : String) :
    ∀ (pairs : List (String × String)) (i total : Nat), i + pairs.length = total →
      colsLoop pk total i pairs =
        joinSep ",\n" (pairs.map (fun p =>
          "    " ++ p.1 ++ " " ++ p.2 ++ (if p.1 = pk then " PRIMARY KEY" else ""))) := by
  intro pairs
  induction pairs with
  | nil => intro i total h; rfl
  | cons p rest ih =>
    intro i total h
    obtain ⟨c, t⟩ := p
    rw [List.length_cons] at h
    show "    " ++ c ++ " " ++ t ++ (if c = pk then " PRIMARY KEY" else "") ++
        (if i < total - 1 then ",\n" else "") ++ colsLoop pk total (i + 1) rest =
      joinSep ",\n" ((("    " ++ c ++ " " ++ t ++ (if c = pk then " PRIMARY KEY" else ""))) ::
        rest.map (fun p => "    " ++ p.1 ++ " " ++ p.2 ++ (if p.1 = pk then " PRIMARY KEY" else "")))
    cases rest with
    | nil =>
      have hno : ¬(i < total - 1) := by
        rw [List.length_nil] at h
        omega
      rw [if_neg hno]
      show _ ++ "" ++ colsLoop pk total (i + 1) [] = _
      have hloop : colsLoop pk total (i + 1) [] = "" := rfl
      rw [hloop, String.append_empty, String.append_empty]
      rfl
    | cons q rest2 =>
      have hlt : i < total - 1 := by
        rw [List.length_cons] at h
        omega
      rw [if_pos hlt, ih (i + 1) total (by rw [List.length_cons] at h ⊢; omega)]
      rfl

/-- Claim C1 (amended): for every table name and non-empty column list
in which the first identifier does not recur among the later columns,
the generated CREATE TABLE marks exactly the first column PRIMARY KEY
(all later column definitions are plain), and exactly one CREATE INDEX
statement is emitted per later column, named idx_<table>_<column>, with
IF NOT EXISTS on both the table and the indexes.  The no-recurrence
hypothesis is forced by the counterexample: the source compares column
names against columns[0], so a duplicate of the first name is also
marked PRIMARY KEY and loses its index. -/
theorem claim_C1 (table c ty : String) (rest tys : List String)
    (hlen : tys.length = rest.length) (hnodup : c ∉ rest) :
    generate_create_table_statement table (c :: rest) (ty :: tys) =
      some ("CREATE TABLE IF NOT EXISTS " ++ table ++ " (\n" ++
        joinSep ",\n" (("    " ++ c ++ " " ++ ty ++ " PRIMARY KEY") ::
          (rest.zip tys).map (fun p => "    " ++ p.1 ++ " " ++ p.2)) ++ "\n);",
        rest.map (indexSql table)) := by
  have hsql : colsLoop c (c :: rest).length 0 ((c :: rest).zip (ty :: tys)) =
      joinSep ",\n" (("    " ++ c ++ " " ++ ty ++ " PRIMARY KEY") ::
        (rest.zip tys).map (fun p => "    " ++ p.1 ++ " " ++ p.2)) := by
    rw [List.zip_cons_cons]
    rw [colsLoop_eq c ((c, ty) :: rest.zip tys) 0 (c :: rest).length
      (by rw [List.length_cons, List.length_zip, List.length_cons, hlen]; omega)]
    rw [List.map_cons]
    have hhead : "    " ++ c ++ " " ++ ty ++ (if c = c then " PRIMARY KEY" else "") =
        "    " ++ c ++ " " ++ ty ++ " PRIMARY KEY" := by rw [if_pos rfl]
    rw [hhead]
    have htail : (rest.zip tys).map (fun p =>
          "    " ++ p.1 ++ " " ++ p.2 ++ (if p.1 = c then " PRIMARY KEY" else "")) =
        (rest.zip tys).map (fun p => "    " ++ p.1 ++ " " ++ p.2) := by
      apply List.map_congr_left
      intro p hp
      obtain ⟨a, b⟩ := p
      have ha : a ∈ rest := (List.of_mem_zip hp).1
      have hne : ¬(a = c) := fun hac => hnodup (hac ▸ ha)
      rw [if_neg hne, String.append_empty]
    rw [htail]
  have hidx : (c :: rest).filter (fun col => col ≠ c) = rest := by
    rw [List.filter_cons, if_neg (by simp)]
    apply List.filter_eq_self.mpr
    intro a ha
    simp only [ne_eq, decide_eq_true_eq]
    exact fun hac => hnodup (hac ▸ ha)
  show some ("CREATE TABLE IF NOT EXISTS " ++ table ++ " (\n" ++
      colsLoop c (c :: rest).length 0 ((c :: rest).zip (ty :: tys)) ++ "\n);",
      ((c :: rest).filter (fun col => col ≠ c)).map (indexSql table)) = _
  rw [hsql, hidx]

/-- Witness for claim C1 at the specification's example: table users
with columns [(id, INTEGER), (name, TEXT)]. -/
theorem claim_C1_witness :
    generate_create_table_statement "users" ["id", "name"] ["INTEGER", "TEXT"] =
      some ("CREATE TABLE IF NOT EXISTS users (\n    id INTEGER PRIMARY KEY,\n    name TEXT\n);",
        ["CREATE INDEX IF NOT EXISTS idx_users_name ON users (name);"]) := by
  rw [claim_C1 "users" "id" "INTEGER" ["name"] ["TEXT"] rfl (by decide)]
  rfl

/-- Counterexample to claim C1 as stated: when the first column name
recurs, both occurrences are marked PRIMARY KEY and no index is
emitted, so the claim fails for the column list [(id, INTEGER),
(id, TEXT)]: the second column is a column other than the first, yet
the emitted index list is empty and the CREATE TABLE text carries
PRIMARY KEY twice. -/
theorem claim_C1_counterexample :
    generate_create_table_statement "t" ["id", "id"] ["INTEGER", "TEXT"] =
      some ("CREATE TABLE IF NOT EXISTS t (\n    id INTEGER PRIMARY KEY,\n    id TEXT PRIMARY KEY\n);",
        []) := by
  rfl
